import Mathlib

/-!
Verification of the hierarchical code-generation engine (`genhcl`) of the
terramate repository, as described by its specification and exercised by
`TestLoadGeneratedHCL`.  The engine itself (directive parsing, hierarchy
collection, conflict resolution, partial expression evaluation, body
serialization, facade `Load`) is modelled from the specification, with the
observable error kinds (`ErrParsing`, `ErrMultiLevelConflict`, `ErrEval`)
taken from the test file, which distinguishes exactly these three kinds.
-/

namespace Genhcl

/-- Modelled from the spec: the downstream configuration language's literal
values (strings, numbers, booleans, null, and compound object/sequence
values).  The engine itself is missing from the sources; only §3 and §4.4 of
the spec and the test expectations describe it. -/
inductive Value where
  | null : Value
  | bool (b : Bool) : Value
  | num (n : Int) : Value
  | str (s : String) : Value
  | obj (fields : List (String × Value)) : Value
  | tuple (elems : List Value) : Value
deriving Repr

/-- Modelled from the spec (§9): the generic expression-tree abstraction the
partial evaluator walks — literals, variable traversals (a namespace root
followed by a field path), the fallback-on-error construct `try`, and
compound object/sequence constructors. -/
inductive Expr where
  | lit (v : Value) : Expr
  | traversal (root : String) (path : List String) : Expr
  | tryE (main fallback : Expr) : Expr
  | objCons (fields : List (String × Expr)) : Expr
  | tupleCons (elems : List Expr) : Expr
deriving Repr

mutual

/-- Modelled from the spec (§4.4): the set of root identifiers referenced by
an expression's variable traversals, collected recursively, including inside
function arguments and compound literals. -/
def Expr.roots : Expr → List String
  | .lit _ => []
  | .traversal r _ => [r]
  | .tryE a b => a.roots ++ b.roots
  | .objCons fs => rootsFields fs
  | .tupleCons es => rootsElems es

/-- Roots referenced inside the fields of an object constructor. -/
def rootsFields : List (String × Expr) → List String
  | [] => []
  | (_, e) :: fs => e.roots ++ rootsFields fs

/-- Roots referenced inside the elements of a sequence constructor. -/
def rootsElems : List Expr → List String
  | [] => []
  | e :: es => e.roots ++ rootsElems es

end

/-- Modelled from the spec (§6): the read-only evaluation context, holding the
externally computed "globals" mapping (arbitrary nested key/value structure)
and the "metadata" mapping. -/
structure Ctx where
  globals : List (String × Value)
  metadata : List (String × Value)

/-- The known namespaces of §4.4/glossary: the globals namespace `global` and
the metadata namespace `terramate` (the latter named by the test cases, e.g.
`terramate.path`). -/
def knownRoot (r : String) : Bool :=
  r = "global" || r = "terramate"

/-- Root namespace lookup in the evaluation context. -/
def lookupRoot (ctx : Ctx) (r : String) : Option Value :=
  if r = "global" then some (.obj ctx.globals)
  else if r = "terramate" then some (.obj ctx.metadata)
  else none

/-- First-match field lookup in an object's field list. -/
def lookupField (k : String) : List (String × Value) → Option Value
  | [] => none
  | (k', v) :: fs => if k = k' then some v else lookupField k fs

/-- Modelled from the spec (§4.4): resolving a traversal's field path against
a value; a missing field or a non-object step is a resolution failure. -/
def walkPath : Value → List String → Except Unit Value
  | v, [] => .ok v
  | .obj fs, k :: ks =>
    match lookupField k fs with
    | some v => walkPath v ks
    | none => .error ()
  | _, _ :: _ => .error ()

/-- Insertion of an evaluated object field keeping keys sorted (the spec §4.4
requires compound values to serialize with member keys in stable sorted
order). -/
def insertField (f : String × Value) : List (String × Value) → List (String × Value)
  | [] => [f]
  | g :: gs => if f.1 ≤ g.1 then f :: g :: gs else g :: insertField f gs

/-- Sorting of evaluated object fields by key. -/
def sortFields : List (String × Value) → List (String × Value)
  | [] => []
  | f :: fs => insertField f (sortFields fs)

mutual

/-- Modelled from the spec (§4.4): full evaluation of an expression against
the context.  A traversal resolves its root namespace and then its field
path; `try` evaluates its main argument and falls back to its second argument
when that fails; compound constructors evaluate their members (objects with
keys sorted).  Any unresolvable reference is an error. -/
def evalExpr (ctx : Ctx) : Expr → Except Unit Value
  | .lit v => .ok v
  | .traversal r path =>
    match lookupRoot ctx r with
    | some v => walkPath v path
    | none => .error ()
  | .tryE a b =>
    match evalExpr ctx a with
    | .ok v => .ok v
    | .error _ => evalExpr ctx b
  | .objCons fs =>
    match evalFields ctx fs with
    | .ok vs => .ok (.obj (sortFields vs))
    | .error e => .error e
  | .tupleCons es =>
    match evalElems ctx es with
    | .ok vs => .ok (.tuple vs)
    | .error e => .error e

/-- Evaluation of object-constructor fields, in order, failing fast. -/
def evalFields (ctx : Ctx) : List (String × Expr) → Except Unit (List (String × Value))
  | [] => .ok []
  | (k, e) :: fs =>
    match evalExpr ctx e with
    | .ok v =>
      match evalFields ctx fs with
      | .ok vs => .ok ((k, v) :: vs)
      | .error err => .error err
    | .error err => .error err

/-- Evaluation of sequence-constructor elements, in order, failing fast. -/
def evalElems (ctx : Ctx) : List Expr → Except Unit (List Value)
  | [] => .ok []
  | e :: es =>
    match evalExpr ctx e with
    | .ok v =>
      match evalElems ctx es with
      | .ok vs => .ok (v :: vs)
      | .error err => .error err
    | .error err => .error err

end

/-- Modelled from the spec (§3): an attribute of a template body — a name and
an unevaluated expression, together with the original source text of that
expression (needed because pass-through must be byte-for-byte). -/
structure Attr where
  name : String
  srcText : String
  expr : Expr

mutual

/-- Modelled from the spec (§3): a template body — ordered attributes and
ordered nested blocks, arbitrarily deep. -/
inductive Body where
  | mk (attrs : List Attr) (blocks : List Block) : Body

/-- Modelled from the spec (§3): a nested block — name, labels and its own
template body. -/
inductive Block where
  | mk (name : String) (labels : List String) (body : Body) : Block

end

/-- Modelled from the spec (§7) and the test file's error expectations: the
three structured error kinds the engine distinguishes — `genhcl.ErrParsing`,
`genhcl.ErrMultiLevelConflict` and `genhcl.ErrEval`. -/
inductive GenError where
  | parsing : GenError
  | multiLevelConflict : GenError
  | eval : GenError
deriving Repr, DecidableEq

/-- An output attribute value after partial evaluation: either the original
source text preserved verbatim, or the computed literal value. -/
inductive OutVal where
  | raw (text : String) : OutVal
  | value (v : Value) : OutVal
deriving Repr

/-- An output attribute: name paired with its partially evaluated value. -/
abbrev OutAttr := String × OutVal

mutual

/-- A (possibly partially evaluated) output body: attributes and nested
blocks. -/
inductive OutBody where
  | mk (attrs : List OutAttr) (blocks : List OutBlock) : OutBody

/-- An output block: name, labels and output body. -/
inductive OutBlock where
  | mk (name : String) (labels : List String) (body : OutBody) : OutBlock

end

/-- Attributes of an output body. -/
def OutBody.attrs : OutBody → List OutAttr
  | .mk a _ => a

/-- Nested blocks of an output body. -/
def OutBody.blocks : OutBody → List OutBlock
  | .mk _ b => b

/-- Modelled from the spec (§4.4): the per-attribute all-or-nothing decision
of the partial evaluator.  If every root referenced anywhere in the
expression is a known namespace, the expression is fully evaluated (an
unresolvable reference then being a hard `ErrEval`); otherwise the original
source text is preserved byte-for-byte. -/
def evalAttr (ctx : Ctx) (a : Attr) : Except GenError OutAttr :=
  if a.expr.roots.all knownRoot then
    match evalExpr ctx a.expr with
    | .ok v => .ok (a.name, .value v)
    | .error _ => .error .eval
  else .ok (a.name, .raw a.srcText)

/-- Partial evaluation of a list of attributes, in order, failing fast. -/
def evalAttrs (ctx : Ctx) : List Attr → Except GenError (List OutAttr)
  | [] => .ok []
  | a :: as =>
    match evalAttr ctx a with
    | .ok oa =>
      match evalAttrs ctx as with
      | .ok oas => .ok (oa :: oas)
      | .error e => .error e
    | .error e => .error e

mutual

/-- Modelled from the spec (§4.4): the recursive tree transform of the
partial evaluator over a template body — every attribute goes through the
per-attribute decision, nested blocks are only recursed into, their names and
labels copied verbatim. -/
def evalBody (ctx : Ctx) : Body → Except GenError OutBody
  | .mk attrs blocks =>
    match evalAttrs ctx attrs with
    | .ok oas =>
      match evalBlocks ctx blocks with
      | .ok obs => .ok (.mk oas obs)
      | .error e => .error e
    | .error e => .error e

/-- Partial evaluation of a list of nested blocks, in order. -/
def evalBlocks (ctx : Ctx) : List Block → Except GenError (List OutBlock)
  | [] => .ok []
  | b :: bs =>
    match evalBlock ctx b with
    | .ok ob =>
      match evalBlocks ctx bs with
      | .ok obs => .ok (ob :: obs)
      | .error e => .error e
    | .error e => .error e

/-- Partial evaluation of a single nested block. -/
def evalBlock (ctx : Ctx) : Block → Except GenError OutBlock
  | .mk name lbls body =>
    match evalBody ctx body with
    | .ok ob => .ok (.mk name lbls ob)
    | .error e => .error e

end

/-- Modelled from the spec (§3): a validated generation directive — its
non-empty label and the template body copied opaquely from its `content`
block. -/
structure Directive where
  label : String
  template : Body

/-- Modelled from the spec (§4.1): the directive shape validator.  Exactly
one non-empty label; the body must hold no attribute, and exactly one nested
block, named `content`, carrying no labels; anything else is a parse
failure (`ErrParsing`). -/
def parseDirective : Block → Except GenError Directive
  | .mk _ [label] (.mk [] [.mk bname blabels template]) =>
    if label = "" then .error .parsing
    else if bname = "content" ∧ blabels = [] then .ok ⟨label, template⟩
    else .error .parsing
  | _ => .error .parsing

/-- Modelled from the spec (§6): one raw configuration document of a
hierarchy level — its file path and the directive-shaped blocks found in it,
in document order. -/
structure Doc where
  filename : String
  blocks : List Block

/-- Modelled from the spec (§3): a collected directive together with its
origin — the source file that defined it. -/
structure Entry where
  label : String
  origin : String
  template : Body

/-- Parsing of every directive-shaped block of one document, in order,
failing fast, tagging each with the document's path as origin. -/
def parseBlocks (origin : String) : List Block → Except GenError (List Entry)
  | [] => .ok []
  | b :: bs =>
    match parseDirective b with
    | .ok d =>
      match parseBlocks origin bs with
      | .ok es => .ok (⟨d.label, origin, d.template⟩ :: es)
      | .error e => .error e
    | .error e => .error e

/-- Parsing of all documents of one hierarchy level, in document order. -/
def parseDocs : List Doc → Except GenError (List Entry)
  | [] => .ok []
  | d :: ds =>
    match parseBlocks d.filename d.blocks with
    | .ok es =>
      match parseDocs ds with
      | .ok rest => .ok (es ++ rest)
      | .error e => .error e
    | .error e => .error e

/-- The labels contributed by a list of collected entries. -/
def labelsOf (es : List Entry) : List String :=
  es.map Entry.label

/-- Modelled from the spec (§4.2, §4.3 step 1) and the tests: collection of
one hierarchy level — parse every directive of every document of the level,
then require label uniqueness across all the level's documents combined.  A
duplicate within one level is reported with the parse-error kind, as the
test cases "blocks with same label on same config fails" and "blocks with
same label on multiple config files fails" demand (`ErrParsing`). -/
def collectLevel (docs : List Doc) : Except GenError (List Entry) :=
  match parseDocs docs with
  | .ok es => if (labelsOf es).Nodup then .ok es else .error .parsing
  | .error e => .error e

/-- Collection of every hierarchy level, root first, failing fast. -/
def collectLevels : List (List Doc) → Except GenError (List (List Entry))
  | [] => .ok []
  | l :: ls =>
    match collectLevel l with
    | .ok es =>
      match collectLevels ls with
      | .ok rest => .ok (es :: rest)
      | .error e => .error e
    | .error e => .error e

/-- Modelled from the spec (§4.3 step 2): cross-level accumulation in
root-to-stack order.  `seen` holds the labels of the levels already
processed; a label of the current level that was already seen at another
level is a cross-level conflict (`ErrMultiLevelConflict`) — there is no
closest-wins override. -/
def crossCheck (seen : List String) : List (List Entry) → Except GenError (List Entry)
  | [] => .ok []
  | lvl :: rest =>
    if lvl.any (fun e => seen.contains e.label) then .error .multiLevelConflict
    else
      match crossCheck (seen ++ labelsOf lvl) rest with
      | .ok tail => .ok (lvl ++ tail)
      | .error e => .error e

/-- Modelled from the spec (§4.2 + §4.3): collection and conflict resolution
for one resolution request, producing the validated ordered entry set. -/
def resolve (levels : List (List Doc)) : Except GenError (List Entry) :=
  match collectLevels levels with
  | .ok lvls => crossCheck [] lvls
  | .error e => .error e

/-- Whether one output attribute name is ≤ another (lexicographic on the
attribute names). -/
def attrLE (a b : OutAttr) : Prop :=
  a.1 ≤ b.1

instance : DecidableRel attrLE :=
  fun a b => inferInstanceAs (Decidable (a.1 ≤ b.1))

instance : IsTotal OutAttr attrLE :=
  ⟨fun a b => le_total a.1 b.1⟩

instance : IsTrans OutAttr attrLE :=
  ⟨fun _ _ _ hab hbc => le_trans hab hbc⟩

mutual

/-- Modelled from the spec (§4.5): the canonicalizing body serializer.  At
every nesting level all attributes come first, sorted lexicographically by
name; all nested blocks follow in their original relative declaration order,
each recursively serialized by the same rule; block names and labels are
preserved verbatim. -/
def serializeBody : OutBody → OutBody
  | .mk attrs blocks => .mk (List.insertionSort attrLE attrs) (serializeBlocks blocks)

/-- Serialization of a list of nested blocks, order preserved. -/
def serializeBlocks : List OutBlock → List OutBlock
  | [] => []
  | b :: bs => serializeBlock b :: serializeBlocks bs

/-- Serialization of a single block: name and labels kept, body recursively
canonicalized. -/
def serializeBlock : OutBlock → OutBlock
  | .mk name lbls body => .mk name lbls (serializeBody body)

end

/-- Modelled from the spec (§3): the output entity — final serialized body
plus the origin path of the winning directive. -/
structure GeneratedBody where
  body : OutBody
  origin : String

/-- Evaluation and serialization of every resolved entry, in order. -/
def genEntries (ctx : Ctx) : List Entry → Except GenError (List (String × GeneratedBody))
  | [] => .ok []
  | e :: es =>
    match evalBody ctx e.template with
    | .ok ob =>
      match genEntries ctx es with
      | .ok rest => .ok ((e.label, ⟨serializeBody ob, e.origin⟩) :: rest)
      | .error err => .error err
    | .error err => .error err

/-- Modelled from the spec (§4.6) and the test harness: the engine facade.
It returns the label-keyed result list together with an optional error,
mirroring the Go signature `genhcl.Load(...) (StackHCLs, error)`; any failure
at any stage aborts the whole call and the result list is empty. -/
def Load (levels : List (List Doc)) (ctx : Ctx) : List (String × GeneratedBody) × Option GenError :=
  match resolve levels with
  | .ok es =>
    match genEntries ctx es with
    | .ok res => (res, none)
    | .error e => ([], some e)
  | .error e => ([], some e)

/-- The head data of an output block: its name and labels, which the
serializer must preserve verbatim and in declaration order. -/
def outBlockHead : OutBlock → String × List String
  | .mk name lbls _ => (name, lbls)

/-- Whether a list of output attributes is in lexicographic order by name. -/
def sortedAttrs : List OutAttr → Bool
  | [] => true
  | [_] => true
  | a :: b :: rest => (decide (a.1 ≤ b.1)) && sortedAttrs (b :: rest)

mutual

/-- Whether an output body is canonical at every nesting level: attributes
sorted lexicographically by name, and every nested block recursively
canonical. -/
def canonicalBody : OutBody → Bool
  | .mk attrs blocks => sortedAttrs attrs && canonicalBlocks blocks

/-- Whether every block of a list is canonical. -/
def canonicalBlocks : List OutBlock → Bool
  | [] => true
  | b :: bs => canonicalBlock b && canonicalBlocks bs

/-- Whether a block's body is canonical. -/
def canonicalBlock : OutBlock → Bool
  | .mk _ _ body => canonicalBody body

end

/-- A block name of a raw block (used to state the parser's shape rules). -/
def blockName : Block → String
  | .mk name _ _ => name

/-- Whether a raw block is an unlabeled block named `content`. -/
def isUnlabeledContent : Block → Bool
  | .mk name lbls _ => name == "content" && lbls == []

/-- Concrete evaluation context from the test "generate HCL on stack using
try and labeled block": global `obj` has fields `field_a`..`field_c` and no
`field_d`; metadata carries the stack path. -/
def ctxTry : Ctx :=
  ⟨[("obj", .obj [("field_a", .str "a"), ("field_b", .str "b"), ("field_c", .str "c")])],
   [("path", .str "/stack")]⟩

/-- The attribute `field_d = try(global.obj.field_d, null)` of that test. -/
def attrTry : Attr :=
  ⟨"field_d", "try(global.obj.field_d, null)",
   .tryE (.traversal "global" ["obj", "field_d"]) (.lit .null)⟩

/-- Concrete context for the remaining witnesses: root globals
`some_string`/`some_number`/`some_bool` and the metadata path of
`/stacks/stack`. -/
def ctxStack : Ctx :=
  ⟨[("some_string", .str "string"), ("some_number", .num 777), ("some_bool", .bool true)],
   [("path", .str "/stacks/stack")]⟩

/-- An attribute referencing only the unknown namespace `local` (test "scope
traversals of unknown namespaces are copied as is"). -/
def attrUnknown : Attr :=
  ⟨"local", "local.something", .traversal "local" ["something"]⟩

/-- An attribute referencing only the known metadata namespace (test
"generate HCL on project root dir": `test = terramate.path`). -/
def attrKnown : Attr :=
  ⟨"test", "terramate.path", .traversal "terramate" ["path"]⟩

/-- An attribute mixing a known root and an unknown root in one expression. -/
def attrMixed : Attr :=
  ⟨"mixed", "[global.some_string, local.something]",
   .tupleCons [.traversal "global" ["some_string"], .traversal "local" ["something"]]⟩

/-- An attribute referencing the known global namespace at an undefined key
(test "global evaluation failure": `required_version = global.undefined`). -/
def attrUndefined : Attr :=
  ⟨"required_version", "global.undefined", .traversal "global" ["undefined"]⟩

/-- A well-formed directive block with label `l` around an empty `content`
block. -/
def emptyDirective (l : String) : Block :=
  .mk "generate_hcl" [l] (.mk [] [.mk "content" [] (.mk [] [])])

/-- A well-formed directive block with label `l` whose content holds one
literal attribute, as in the cross-level conflict tests. -/
def dataDirective (l : String) (d : String) : Block :=
  .mk "generate_hcl" [l]
    (.mk [] [.mk "content" [] (.mk [⟨"data", d, .lit (.str d)⟩] [])])

/-- The document of the test "blocks with same label on same config fails":
two directives labeled `duplicated` in one file of one directory. -/
def dupDoc : Doc :=
  ⟨"/stacks/stack/terramate.tm.hcl",
   [dataDirective "duplicated" "some literal data",
    dataDirective "duplicated" "some literal data2"]⟩

/-- The document of the test "block with no label fails": a directive-shaped
block carrying no label. -/
def noLabelDoc : Doc :=
  ⟨"/stacks/stack/terramate.tm.hcl",
   [.mk "generate_hcl" []
     (.mk [] [.mk "content" [] (.mk [⟨"data", "some literal data", .lit (.str "some literal data")⟩] [])])]⟩

/-- The two-level configuration of the test "stack with block with same label
as parent is an error": label `repeated` at `/stacks` and at
`/stacks/stack`. -/
def repeatedLevels : List (List Doc) :=
  [[⟨"/stacks/terramate.tm.hcl", [dataDirective "repeated" "parent data"]⟩],
   [⟨"/stacks/stack/terramate.tm.hcl", [dataDirective "repeated" "stack data"]⟩]]

/-- The entry collected from the parent level of `repeatedLevels`. -/
def repeatedParentEntry : Entry :=
  ⟨"repeated", "/stacks/terramate.tm.hcl",
   .mk [⟨"data", "parent data", .lit (.str "parent data")⟩] []⟩

/-- The entry collected from the stack level of `repeatedLevels`. -/
def repeatedStackEntry : Entry :=
  ⟨"repeated", "/stacks/stack/terramate.tm.hcl",
   .mk [⟨"data", "stack data", .lit (.str "stack data")⟩] []⟩

theorem sortAttrs_sorted (l : List OutAttr) :
    List.Sorted attrLE (List.insertionSort attrLE l) :=
  List.sorted_insertionSort attrLE l

theorem sortAttrs_idem (l : List OutAttr) :
    List.insertionSort attrLE (List.insertionSort attrLE l) = List.insertionSort attrLE l :=
  (sortAttrs_sorted l).insertionSort_eq

theorem sortedAttrs_of_sorted : ∀ {l : List OutAttr}, List.Sorted attrLE l → sortedAttrs l = true
  | [], _ => rfl
  | [_], _ => rfl
  | a :: b :: rest, h => by
    rw [List.sorted_cons] at h
    have hab : attrLE a b := h.1 b (by simp)
    have hrest : sortedAttrs (b :: rest) = true :=
      sortedAttrs_of_sorted ((List.sorted_cons).mpr ⟨fun c hc => (List.sorted_cons.mp h.2).1 c hc, (List.sorted_cons.mp h.2).2⟩)
    simp only [sortedAttrs, hrest, Bool.and_true, decide_eq_true_eq]
    exact hab

mutual

theorem serializeBody_idem_aux : ∀ b : OutBody, serializeBody (serializeBody b) = serializeBody b
  | .mk attrs blocks => by
    simp [serializeBody, sortAttrs_idem, serializeBlocks_idem_aux blocks]

theorem serializeBlocks_idem_aux :
    ∀ bs : List OutBlock, serializeBlocks (serializeBlocks bs) = serializeBlocks bs
  | [] => rfl
  | b :: bs => by
    simp [serializeBlocks, serializeBlock_idem_aux b, serializeBlocks_idem_aux bs]

theorem serializeBlock_idem_aux : ∀ b : OutBlock, serializeBlock (serializeBlock b) = serializeBlock b
  | .mk name lbls body => by
    simp [serializeBlock, serializeBody_idem_aux body]

end

mutual

theorem canonicalBody_serialize_aux : ∀ b : OutBody, canonicalBody (serializeBody b) = true
  | .mk attrs blocks => by
    simp [serializeBody, canonicalBody, sortedAttrs_of_sorted (sortAttrs_sorted attrs),
      canonicalBlocks_serialize_aux blocks]

theorem canonicalBlocks_serialize_aux :
    ∀ bs : List OutBlock, canonicalBlocks (serializeBlocks bs) = true
  | [] => rfl
  | b :: bs => by
    simp [serializeBlocks, canonicalBlocks, canonicalBlock_serialize_aux b,
      canonicalBlocks_serialize_aux bs]

theorem canonicalBlock_serialize_aux : ∀ b : OutBlock, canonicalBlock (serializeBlock b) = true
  | .mk name lbls body => by
    simp [serializeBlock, canonicalBlock, canonicalBody_serialize_aux body]

end

theorem serializeBlocks_heads :
    ∀ bs : List OutBlock, (serializeBlocks bs).map outBlockHead = bs.map outBlockHead
  | [] => rfl
  | b :: bs => by
    cases b with
    | mk name lbls body =>
      simp [serializeBlocks, serializeBlock, outBlockHead, serializeBlocks_heads bs]

/-- C5: for every template body and at every nesting level of it, the
serialized output lists all attributes of that level first, ordered
lexicographically by name, followed by all nested blocks of that level in
their original declaration order, recursively inside each block: the output
is canonical at every level, its attributes are a permutation of the input's,
and the block heads are preserved in order. -/
theorem claim5_serializer_ordering (b : OutBody) :
    canonicalBody (serializeBody b) = true ∧
    (serializeBody b).attrs.Perm b.attrs ∧
    (serializeBody b).blocks.map outBlockHead = b.blocks.map outBlockHead := by
  refine ⟨canonicalBody_serialize_aux b, ?_, ?_⟩
  · cases b with
    | mk attrs blocks =>
      simpa [serializeBody, OutBody.attrs] using List.perm_insertionSort attrLE attrs
  · cases b with
    | mk attrs blocks =>
      simpa [serializeBody, OutBody.blocks] using serializeBlocks_heads blocks

/-- C5 witness: the theorem applied to a concrete two-attribute, one-block
body. -/
theorem claim5_witness :
    canonicalBody (serializeBody (.mk [("str", .raw "s"), ("num", .raw "n")]
        [.mk "test" [] (.mk [] [])])) = true ∧
    (serializeBody (.mk [("str", .raw "s"), ("num", .raw "n")]
        [.mk "test" [] (.mk [] [])])).attrs.Perm [("str", .raw "s"), ("num", .raw "n")] ∧
    (serializeBody (.mk [("str", .raw "s"), ("num", .raw "n")]
        [.mk "test" [] (.mk [] [])])).blocks.map outBlockHead
      = [OutBlock.mk "test" [] (.mk [] [])].map outBlockHead :=
  claim5_serializer_ordering (.mk [("str", .raw "s"), ("num", .raw "n")] [.mk "test" [] (.mk [] [])])

/-- C9: the body serializer is idempotent — serializing the output of a
previous serialization yields that output unchanged. -/
theorem claim9_serializer_idempotent (b : OutBody) :
    serializeBody (serializeBody b) = serializeBody b :=
  serializeBody_idem_aux b

/-- C7: the attribute expression `try(global.obj.field_d, null)`, where the
global object `obj` has no field `field_d`, partially evaluates to the
literal `null`, not to an evaluation error. -/
theorem claim7_try_fallback :
    evalAttr ctxTry attrTry = .ok ("field_d", .value .null) := rfl

/-- C10: whenever the engine facade `Load` reports an error, the result it
returns exposes an empty generated-body list — no partial result for any
label is observable by the caller. -/
theorem claim10_error_empty_result (levels : List (List Doc)) (ctx : Ctx) (e : GenError)
    (h : (Load levels ctx).2 = some e) : (Load levels ctx).1 = [] := by
  cases hr : resolve levels with
  | ok es =>
    cases hg : genEntries ctx es with
    | ok res => simp [Load, hr, hg] at h
    | error err => simp [Load, hr, hg]
  | error err => simp [Load, hr]

/-- C10 witness: the theorem applied to the failing no-label configuration
of the test "block with no label fails". -/
theorem claim10_witness :
    (Load [[noLabelDoc]] ctxStack).2 = some GenError.parsing ∧
    (Load [[noLabelDoc]] ctxStack).1 = [] :=
  ⟨rfl, claim10_error_empty_result [[noLabelDoc]] ctxStack GenError.parsing rfl⟩

/-- C8: a resolution request whose directive has an empty content block
succeeds, the resulting body for that label is empty, and the label still
appears in the result with origin equal to the file that defined the
directive. -/
theorem claim8_empty_content (l f : String) (ctx : Ctx) (h : l ≠ "") :
    Load [[⟨f, [emptyDirective l]⟩]] ctx = ([(l, ⟨.mk [] [], f⟩)], none) := by
  simp [Load, resolve, collectLevels, collectLevel, parseDocs, parseBlocks, parseDirective,
    emptyDirective, h, labelsOf, crossCheck, genEntries, evalBody, evalAttrs, evalBlocks,
    serializeBody, serializeBlocks]

/-- C8 witness: the theorem applied to the test "empty content block
generates empty code". -/
theorem claim8_witness :
    Load [[⟨"/stack/terramate.tm.hcl", [emptyDirective "empty"]⟩]] ctxStack
      = ([("empty", ⟨.mk [] [], "/stack/terramate.tm.hcl"⟩)], none) :=
  claim8_empty_content "empty" "/stack/terramate.tm.hcl" ctxStack (by decide)

/-- C1: the per-attribute all-or-nothing law of the partial evaluator: an
expression referencing only unknown roots is passed through with its
original source text byte-identical; one referencing only known roots is
replaced by its computed literal value; one mixing known and unknown roots
is left unevaluated (source text preserved). -/
theorem claim1_partial_evaluation (ctx : Ctx) (a : Attr) :
    ((a.expr.roots ≠ [] ∧ ∀ r ∈ a.expr.roots, knownRoot r = false) →
       evalAttr ctx a = .ok (a.name, .raw a.srcText)) ∧
    (∀ v : Value, (∀ r ∈ a.expr.roots, knownRoot r = true) →
       evalExpr ctx a.expr = .ok v → evalAttr ctx a = .ok (a.name, .value v)) ∧
    (((∃ r ∈ a.expr.roots, knownRoot r = true) ∧ ∃ r ∈ a.expr.roots, knownRoot r = false) →
       evalAttr ctx a = .ok (a.name, .raw a.srcText)) := by
  refine ⟨?_, ?_, ?_⟩
  · rintro ⟨hne, hunk⟩
    have hfalse : ¬ (a.expr.roots.all knownRoot = true) := by
      intro hall
      rw [List.all_eq_true] at hall
      cases hroots : a.expr.roots with
      | nil => exact hne hroots
      | cons r rs =>
        have hmem : r ∈ a.expr.roots := by rw [hroots]; simp
        have h1 := hall r hmem
        have h2 := hunk r hmem
        rw [h2] at h1
        exact Bool.false_ne_true h1
    simp [evalAttr, hfalse]
  · intro v hk he
    have htrue : a.expr.roots.all knownRoot = true := List.all_eq_true.mpr hk
    simp [evalAttr, htrue, he]
  · rintro ⟨⟨rk, hrk, hrkt⟩, ⟨ru, hru, hruf⟩⟩
    have hfalse : ¬ (a.expr.roots.all knownRoot = true) := by
      intro hall
      rw [List.all_eq_true] at hall
      have h1 := hall ru hru
      rw [hruf] at h1
      exact Bool.false_ne_true h1
    simp [evalAttr, hfalse]

/-- C1 witness: the theorem applied to a concrete unknown-roots attribute
(`local.something`), a concrete known-roots attribute (`terramate.path`) and
a concrete mixed attribute. -/
theorem claim1_witness :
    evalAttr ctxStack attrUnknown = .ok ("local", .raw "local.something") ∧
    evalAttr ctxStack attrKnown = .ok ("test", .value (.str "/stacks/stack")) ∧
    evalAttr ctxStack attrMixed = .ok ("mixed", .raw "[global.some_string, local.something]") :=
  ⟨(claim1_partial_evaluation ctxStack attrUnknown).1 (by decide),
   (claim1_partial_evaluation ctxStack attrKnown).2.1 (.str "/stacks/stack") (by decide) rfl,
   (claim1_partial_evaluation ctxStack attrMixed).2.2 ⟨by decide, by decide⟩⟩

theorem evalAttr_error_eval {ctx : Ctx} {a : Attr} {e : GenError}
    (h : evalAttr ctx a = .error e) : e = .eval := by
  unfold evalAttr at h
  by_cases hc : a.expr.roots.all knownRoot = true
  · rw [if_pos hc] at h
    cases he : evalExpr ctx a.expr with
    | ok v => rw [he] at h; exact Except.noConfusion h
    | error u => rw [he] at h; injection h with h'; exact h'.symm
  · rw [if_neg hc] at h
    exact Except.noConfusion h

theorem evalAttrs_error_of_mem {ctx : Ctx} {a : Attr} :
    ∀ {attrs : List Attr}, a ∈ attrs → evalAttr ctx a = .error .eval →
      evalAttrs ctx attrs = .error .eval
  | [], hmem, _ => absurd hmem (List.not_mem_nil a)
  | b :: bs, hmem, herr => by
    unfold evalAttrs
    rcases List.mem_cons.mp hmem with rfl | hbs
    · rw [herr]
    · cases hb : evalAttr ctx b with
      | ok oa => rw [evalAttrs_error_of_mem hbs herr]
      | error e =>
        have he : e = .eval := evalAttr_error_eval hb
        rw [he]

/-- C6: for an expression whose roots all belong to known namespaces, a
reference that does not resolve in the supplied context makes evaluation of
the enclosing body fail with the evaluation-error kind; it is never silently
passed through. -/
theorem claim6_eval_error (ctx : Ctx) (attrs : List Attr) (blocks : List Block) (a : Attr)
    (ha : a ∈ attrs) (hk : ∀ r ∈ a.expr.roots, knownRoot r = true)
    (hf : evalExpr ctx a.expr = .error ()) :
    evalBody ctx (.mk attrs blocks) = .error GenError.eval := by
  have herr : evalAttr ctx a = .error .eval := by
    have htrue : a.expr.roots.all knownRoot = true := List.all_eq_true.mpr hk
    simp [evalAttr, htrue, hf]
  have hattrs := evalAttrs_error_of_mem ha herr
  simp [evalBody, hattrs]

/-- C6 witness: the theorem applied to the test "global evaluation failure",
where `global.undefined` looks resolvable but is not defined. -/
theorem claim6_witness :
    evalBody ctxStack (.mk [attrUndefined] []) = .error GenError.eval :=
  claim6_eval_error ctxStack [attrUndefined] [] attrUndefined (by simp) (by decide) rfl

theorem crossCheck_ok_aux :
    ∀ {seen : List String} {lvls : List (List Entry)} {res : List Entry},
      crossCheck seen lvls = .ok res →
      (∀ lvl ∈ lvls, ∀ L ∈ labelsOf lvl, L ∉ seen) ∧
      List.Pairwise (fun l1 l2 => ∀ L ∈ labelsOf l1, L ∉ labelsOf l2) lvls
  | _, [], _, _ => ⟨by simp, List.Pairwise.nil⟩
  | seen, lvl :: rest, res, h => by
    unfold crossCheck at h
    by_cases hA : lvl.any (fun e => seen.contains e.label) = true
    · rw [if_pos hA] at h
      exact Except.noConfusion h
    · rw [if_neg hA] at h
      cases hrec : crossCheck (seen ++ labelsOf lvl) rest with
      | error e => rw [hrec] at h; exact Except.noConfusion h
      | ok tail =>
        have ih := crossCheck_ok_aux hrec
        refine ⟨?_, ?_⟩
        · intro l hl L hL
          rcases List.mem_cons.mp hl with rfl | hl'
          · intro hLseen
            apply hA
            rw [List.any_eq_true]
            rcases List.mem_map.mp hL with ⟨e, he, rfl⟩
            exact ⟨e, he, by simpa using hLseen⟩
          · intro hLseen
            exact ih.1 l hl' L hL (by simp [hLseen])
        · refine List.Pairwise.cons ?_ ih.2
          intro l2 hl2 L hL hL2
          exact ih.1 l2 hl2 L hL2 (by simp [hL])

theorem crossCheck_error_kind :
    ∀ {seen : List String} {lvls : List (List Entry)} {e : GenError},
      crossCheck seen lvls = .error e → e = .multiLevelConflict
  | _, [], _, h => Except.noConfusion h
  | seen, lvl :: rest, e, h => by
    unfold crossCheck at h
    by_cases hA : lvl.any (fun e => seen.contains e.label) = true
    · rw [if_pos hA] at h
      injection h with h'
      exact h'.symm
    · rw [if_neg hA] at h
      cases hrec : crossCheck (seen ++ labelsOf lvl) rest with
      | ok tail => rw [hrec] at h; exact Except.noConfusion h
      | error e' =>
        rw [hrec] at h
        injection h with h'
        rw [← h']
        exact crossCheck_error_kind hrec

/-- C2: whenever the same label is collected at two distinct hierarchy
levels of the root-to-stack path — regardless of which two levels —
resolution fails with the cross-level conflict kind and returns no result:
there is no closest-wins shadowing. -/
theorem claim2_cross_level_conflict (levels : List (List Doc)) (ctx : Ctx)
    (lvls : List (List Entry)) (hc : collectLevels levels = .ok lvls)
    (i j : Nat) (hi : i < lvls.length) (hj : j < lvls.length) (hij : i < j) (L : String)
    (h1 : L ∈ labelsOf lvls[i]) (h2 : L ∈ labelsOf lvls[j]) :
    Load levels ctx = ([], some GenError.multiLevelConflict) := by
  have hcc : crossCheck [] lvls = .error .multiLevelConflict := by
    cases hx : crossCheck [] lvls with
    | ok res =>
      exfalso
      have hp := (crossCheck_ok_aux hx).2
      exact (List.pairwise_iff_getElem.mp hp) i j hi hj hij L h1 h2
    | error e =>
      rw [crossCheck_error_kind hx]
  simp [Load, resolve, hc, hcc]

/-- C2 witness: the theorem applied to the test "stack with block with same
label as parent is an error" — label `repeated` at `/stacks` and at
`/stacks/stack`. -/
theorem claim2_witness :
    Load repeatedLevels ctxStack = ([], some GenError.multiLevelConflict) :=
  claim2_cross_level_conflict repeatedLevels ctxStack
    [[repeatedParentEntry], [repeatedStackEntry]] rfl
    0 1 (by decide) (by decide) (by decide) "repeated"
    (by simp [labelsOf, repeatedParentEntry])
    (by simp [labelsOf, repeatedStackEntry])

theorem collectLevels_error_mid :
    ∀ {pre : List (List Doc)} {plvls : List (List Entry)} {lvl : List Doc}
      {post : List (List Doc)} {e : GenError},
      collectLevels pre = .ok plvls → collectLevel lvl = .error e →
      collectLevels (pre ++ lvl :: post) = .error e
  | [], _, lvl, post, e, _, herr => by
    rw [List.nil_append]
    unfold collectLevels
    rw [herr]
  | p :: pre, plvls, lvl, post, e, hpre, herr => by
    unfold collectLevels at hpre
    cases hp : collectLevel p with
    | error e' => rw [hp] at hpre; exact Except.noConfusion hpre
    | ok es =>
      rw [hp] at hpre
      cases hrest : collectLevels pre with
      | error e' => rw [hrest] at hpre; exact Except.noConfusion hpre
      | ok rest =>
        rw [List.cons_append]
        unfold collectLevels
        rw [hp, collectLevels_error_mid hrest herr]

/-- C3 counterexample: in the test "blocks with same label on same config
fails" (two directives labeled `duplicated` in one document of one level),
the engine fails with `GenError.parsing` — the ParseError kind itself — so
the failure is not of a kind distinguishable from ParseError, refuting the
claim at this concrete input. -/
theorem claim3_counterexample :
    Load [[dupDoc]] ctxStack = ([], some GenError.parsing) := rfl

/-- C3 (amended): a duplicate label within one hierarchy level — same
document or two documents of that level — makes resolution fail with the
ParseError kind (`ErrParsing`), there being no separate same-level conflict
kind. -/
theorem claim3_same_level_parse_error (pre : List (List Doc)) (plvls : List (List Entry))
    (lvl : List Doc) (post : List (List Doc)) (ctx : Ctx) (es : List Entry)
    (hpre : collectLevels pre = .ok plvls) (hparse : parseDocs lvl = .ok es)
    (hdup : ¬ (labelsOf es).Nodup) :
    Load (pre ++ lvl :: post) ctx = ([], some GenError.parsing) := by
  have hlvl : collectLevel lvl = .error .parsing := by
    simp [collectLevel, hparse, hdup]
  have hall := @collectLevels_error_mid pre plvls lvl post GenError.parsing hpre hlvl
  simp [Load, resolve, hall]

/-- C3 witness: the amended theorem applied to the duplicate-label document
of the test, as the only level of the request. -/
theorem claim3_witness :
    Load ([] ++ [dupDoc] :: []) ctxStack = ([], some GenError.parsing) :=
  claim3_same_level_parse_error [] [] [dupDoc] [] ctxStack
    [⟨"duplicated", "/stacks/stack/terramate.tm.hcl",
       .mk [⟨"data", "some literal data", .lit (.str "some literal data")⟩] []⟩,
     ⟨"duplicated", "/stacks/stack/terramate.tm.hcl",
       .mk [⟨"data", "some literal data2", .lit (.str "some literal data2")⟩] []⟩]
    rfl rfl (by decide)

/-- C4: the directive shape validator rejects, with the parse-error kind,
every directive block that has zero labels, more than one label, or an
empty-string label; that does not contain exactly one unlabeled nested
`content` block; or that carries any attribute or any non-`content` nested
block directly inside the directive body. -/
theorem claim4_shape_rules (name : String) (lbls : List String) (attrs : List Attr)
    (blocks : List Block)
    (h : lbls.length ≠ 1 ∨ "" ∈ lbls ∨ attrs ≠ [] ∨
         blocks.countP isUnlabeledContent ≠ 1 ∨ ∃ b ∈ blocks, blockName b ≠ "content") :
    parseDirective (.mk name lbls (.mk attrs blocks)) = .error GenError.parsing := by
  match lbls, attrs, blocks with
  | [], _, _ => rfl
  | _ :: _ :: _, _, _ => rfl
  | [l], _ :: _, _ => rfl
  | [l], [], [] => rfl
  | [l], [], .mk _ _ _ :: _ :: _ => rfl
  | [l], [], [.mk bn bl t] =>
    by_cases hl : l = ""
    · simp [parseDirective, hl]
    · by_cases hcb : bn = "content" ∧ bl = []
      · exfalso
        obtain ⟨hbn, hbl⟩ := hcb
        subst hbn
        subst hbl
        rcases h with h | h | h | h | h
        · exact h rfl
        · exact hl (List.mem_singleton.mp h).symm
        · exact h rfl
        · apply h
          simp [List.countP_cons, isUnlabeledContent]
        · obtain ⟨b, hb, hbname⟩ := h
          rw [List.mem_singleton.mp hb] at hbname
          exact hbname rfl
      · simp [parseDirective, hl, hcb]

/-- C4 witness: the theorem applied to the zero-label directive of the test
"block with no label fails". -/
theorem claim4_witness :
    parseDirective (.mk "generate_hcl" []
      (.mk [] [.mk "content" [] (.mk [] [])])) = .error GenError.parsing :=
  claim4_shape_rules "generate_hcl" [] [] [.mk "content" [] (.mk [] [])] (Or.inl (by decide))

end Genhcl
